import Mathlib

/-!
Verification of the WebSocket bridge in src/server.js (Index wrapper).

The bridge is the per-client closure installed by the connection handler:
per accepted browser connection it keeps a gatewaySocket (nullable), a
buffer of frames queued before the gateway connection opens, and an
alive flag. The event handlers (client message, client close, gateway
open, gateway message, gateway close, gateway error, reconnect timer)
are translated below into a deterministic step function over an explicit
state record, with the outputs of a step recorded as an ordered list of
send actions. Frames are opaque: the whole development is polymorphic in
the frame type F, reflecting that the bridge relays payloads verbatim
without parsing them.

Time is explicit: every event carries the timestamp at which it occurs,
and the validity predicate requires timestamps to be monotone and
reconnect timers to fire exactly at their scheduled deadline, before any
later event.
-/

namespace Bridge

/-- Fixed reconnect delay in milliseconds: setTimeout(connectGateway, 3000). -/
def RECONNECT_DELAY : Nat := 3000

/-- Bounded handshake timeout passed to the gateway socket constructor. -/
def HANDSHAKE_TIMEOUT : Nat := 5000

/-- Gateway WebSocket URL with the default host and port configuration. -/
def GATEWAY_WS : String := "ws://127.0.0.1:18789"

/-- Ready states of a ws WebSocket: CONNECTING, OPEN, CLOSING, CLOSED. -/
inductive ReadyState where
  | CONNECTING
  | OPEN
  | CLOSING
  | CLOSED
deriving DecidableEq

/-- The JSON object built by sendStatus: exactly the four fields
type, state, message, ts (translated field for field). -/
structure StatusFrame where
  type : String
  state : String
  message : String
  ts : Nat
deriving DecidableEq

/-- A message on either wire: a relayed opaque frame, or a synthetic
status frame injected by the bridge. -/
inductive WireMsg (F : Type) where
  | relayed (data : F)
  | status (frame : StatusFrame)
deriving DecidableEq

/-- True exactly on status frames. -/
def WireMsg.isStatus {F : Type} : WireMsg F → Bool
  | WireMsg.status _ => true
  | WireMsg.relayed _ => false

/-- Extract the status frame of a wire message, if any. -/
def WireMsg.getStatus {F : Type} : WireMsg F → Option StatusFrame
  | WireMsg.status fr => some fr
  | WireMsg.relayed _ => none

/-- One send performed by a handler: gatewaySocket.send or
clientSocket.send. A step returns the list of sends it performed, in
program order. -/
inductive Act (F : Type) where
  | sendGateway (m : WireMsg F)
  | sendClient (m : WireMsg F)
deriving DecidableEq

/-- The messages a list of actions sends to the gateway, in order. -/
def gatewaySends {F : Type} (acts : List (Act F)) : List (WireMsg F) :=
  acts.filterMap (fun a => match a with
    | Act.sendGateway m => some m
    | Act.sendClient _ => none)

/-- The messages a list of actions sends to the client, in order. -/
def clientSends {F : Type} (acts : List (Act F)) : List (WireMsg F) :=
  acts.filterMap (fun a => match a with
    | Act.sendClient m => some m
    | Act.sendGateway _ => none)

/-- Per-connection state of the bridge closure: the gatewaySocket
variable (none before the first connect attempt, otherwise the ready
state of the current socket object), the pending buffer, the alive
flag, whether the client socket is still OPEN, the multiset of pending
reconnect timer deadlines (the code never stores the timeout id, so it
can never cancel them), and the current clock in epoch milliseconds. -/
structure BridgeState (F : Type) where
  gatewaySocket : Option ReadyState
  buffer : List F
  alive : Bool
  clientOpen : Bool
  timers : List Nat
  now : Nat
deriving DecidableEq

/-- sendStatus(state, message): sends the status JSON to the client
socket only, and only when the client socket is OPEN; ts is Date.now(). -/
def sendStatus {F : Type} (s : BridgeState F) (st msg : String) : List (Act F) :=
  if s.clientOpen then
    [Act.sendClient (WireMsg.status
      { type := "__index_status", state := st, message := msg, ts := s.now })]
  else []

/-- Effect of gatewaySocket.close() on the ready state: a CONNECTING or
OPEN socket moves to CLOSING; CLOSING and CLOSED are unchanged. -/
def closeSock : ReadyState → ReadyState
  | ReadyState.CONNECTING => ReadyState.CLOSING
  | ReadyState.OPEN => ReadyState.CLOSING
  | ReadyState.CLOSING => ReadyState.CLOSING
  | ReadyState.CLOSED => ReadyState.CLOSED

/-- connectGateway: constructs a new gateway socket (then in the
CONNECTING state). The ok flag is false when the constructor throws, in
which case the catch branch reports a status of state error and returns
with the gatewaySocket variable unassigned. -/
def connectGateway {F : Type} (ok : Bool) (s : BridgeState F) :
    BridgeState F × List (Act F) :=
  if ok then
    ({ s with gatewaySocket := some ReadyState.CONNECTING }, [])
  else
    (s, sendStatus s "error" "Cannot create socket")

/-- The flush loop of the open handler, buffer.forEach: at iteration i
it reads the ready state of the current gatewaySocket (modelled by the
oracle rsAt) and sends the frame only if that read yields OPEN; a
skipped frame is not re-buffered. -/
def flushFrom {F : Type} (rsAt : Nat → ReadyState) (i : Nat) :
    List F → List F
  | [] => []
  | f :: rest =>
    if rsAt i = ReadyState.OPEN then f :: flushFrom rsAt (i + 1) rest
    else flushFrom rsAt (i + 1) rest

/-- The frames actually sent by the flush loop, starting at index 0. -/
def flushSent {F : Type} (rsAt : Nat → ReadyState) (buf : List F) : List F :=
  flushFrom rsAt 0 buf

/-- External events driving one bridge instance, one per handler in the
source: a frame from the client, the client socket closing, the gateway
socket opening, a frame from the gateway, the gateway socket closing,
a gateway error, and a scheduled reconnect timer firing (its ok flag
records whether the socket constructor succeeds). -/
inductive Ev (F : Type) where
  | clientMessage (data : F)
  | clientClose
  | gatewayOpen
  | gatewayMessage (data : F)
  | gatewayClose
  | gatewayError (msg : String)
  | timerFire (ok : Bool)
deriving DecidableEq

/-- True exactly on the timerFire events (reconnect attempts). -/
def isFire {F : Type} : Ev F → Bool
  | Ev.timerFire _ => true
  | _ => false

/-- True exactly on gatewayClose events. -/
def isClose {F : Type} : Ev F → Bool
  | Ev.gatewayClose => true
  | _ => false

/-- True exactly on the clientClose event. -/
def isClientCloseEv {F : Type} : Ev F → Bool
  | Ev.clientClose => true
  | _ => false

/-- One event dispatch, translated handler by handler from server.js.
The clock is first set to the time t of the event (Date.now() reads t).

clientMessage: if gatewaySocket?.readyState === OPEN forward to the
gateway, else push onto buffer.

clientClose: alive = false, gatewaySocket?.close(); the pending timers
are NOT touched (the code holds no timeout id).

gatewayOpen: the socket becomes OPEN; sendStatus connected; flush the
buffer with the per-iteration ready-state guard; then buffer = [].

gatewayMessage: forward to the client only if the client socket is OPEN.

gatewayClose: the socket becomes CLOSED; sendStatus disconnected; if
alive, schedule a reconnect timer at t + RECONNECT_DELAY.

gatewayError: sendStatus error only; no state change.

timerFire: the deadline is consumed and connectGateway runs. -/
def step {F : Type} (s : BridgeState F) (t : Nat) (e : Ev F) :
    BridgeState F × List (Act F) :=
  let s0 : BridgeState F := { s with now := t }
  match e with
  | Ev.clientMessage data =>
    if s0.gatewaySocket = some ReadyState.OPEN then
      (s0, [Act.sendGateway (WireMsg.relayed data)])
    else
      ({ s0 with buffer := s0.buffer ++ [data] }, [])
  | Ev.clientClose =>
    ({ s0 with clientOpen := false, alive := false,
               gatewaySocket := s0.gatewaySocket.map closeSock }, [])
  | Ev.gatewayOpen =>
    let s1 : BridgeState F := { s0 with gatewaySocket := some ReadyState.OPEN }
    let statusActs := sendStatus s1 "connected" ("Gateway live at " ++ GATEWAY_WS)
    let sent := flushSent (fun _ => ReadyState.OPEN) s1.buffer
    ({ s1 with buffer := [] },
     statusActs ++ sent.map (fun m => Act.sendGateway (WireMsg.relayed m)))
  | Ev.gatewayMessage data =>
    if s0.clientOpen then
      (s0, [Act.sendClient (WireMsg.relayed data)])
    else
      (s0, [])
  | Ev.gatewayClose =>
    let s1 : BridgeState F := { s0 with gatewaySocket := some ReadyState.CLOSED }
    let statusActs := sendStatus s1 "disconnected" "Gateway closed — retrying in 3s"
    if s1.alive then
      ({ s1 with timers := s1.timers ++ [t + RECONNECT_DELAY] }, statusActs)
    else
      (s1, statusActs)
  | Ev.gatewayError msg =>
    (s0, sendStatus s0 "error" msg)
  | Ev.timerFire ok =>
    connectGateway ok { s0 with timers := s0.timers.erase t }

/-- Whether an event can occur at time t in state s: time is monotone,
no event may be later than a pending timer deadline (timers fire on
time), and each event requires the socket state its handler listens on. -/
def validStep {F : Type} (s : BridgeState F) (t : Nat) (e : Ev F) : Bool :=
  decide (s.now ≤ t) &&
  s.timers.all (fun d => decide (t ≤ d)) &&
  match e with
  | Ev.clientMessage _ => s.clientOpen
  | Ev.clientClose => s.clientOpen
  | Ev.gatewayOpen => decide (s.gatewaySocket = some ReadyState.CONNECTING)
  | Ev.gatewayMessage _ => decide (s.gatewaySocket = some ReadyState.OPEN)
  | Ev.gatewayClose =>
      decide (s.gatewaySocket ≠ none) &&
      decide (s.gatewaySocket ≠ some ReadyState.CLOSED)
  | Ev.gatewayError _ =>
      decide (s.gatewaySocket ≠ none) &&
      decide (s.gatewaySocket ≠ some ReadyState.CLOSED)
  | Ev.timerFire _ => decide (t ∈ s.timers)

/-- Run a timestamped event trace, accumulating the actions in order. -/
def run {F : Type} : BridgeState F → List (Nat × Ev F) →
    BridgeState F × List (Act F)
  | s, [] => (s, [])
  | s, (t, e) :: rest =>
    let p := step s t e
    let q := run p.1 rest
    (q.1, p.2 ++ q.2)

/-- A trace is valid when every event is valid in the state it meets. -/
def validTrace {F : Type} : BridgeState F → List (Nat × Ev F) → Bool
  | _, [] => true
  | s, (t, e) :: rest => validStep s t e && validTrace (step s t e).1 rest

/-- State of the closure right after the connection handler initialises
its variables: gatewaySocket = null, buffer = [], alive = true, the
client socket open, no timer pending. -/
def initState (F : Type) : BridgeState F :=
  { gatewaySocket := none, buffer := [], alive := true,
    clientOpen := true, timers := [], now := 0 }

/-- The connection handler then immediately calls connectGateway(). -/
def acceptConnection (F : Type) : BridgeState F × List (Act F) :=
  connectGateway true (initState F)

/-- Number of reconnect attempts (timer firings) in a trace. -/
def countFires {F : Type} (tr : List (Nat × Ev F)) : Nat :=
  (tr.filter (fun p => isFire p.2)).length

/-- Number of gateway close events in a trace. -/
def countCloses {F : Type} (tr : List (Nat × Ev F)) : Nat :=
  (tr.filter (fun p => isClose p.2)).length

/-- A trace with no clientClose event: the client stays connected. -/
def noClientClose {F : Type} (tr : List (Nat × Ev F)) : Bool :=
  tr.all (fun p => !isClientCloseEv p.2)

/-- Times of the gateway close events of a trace, in order. -/
def closeTimes {F : Type} (tr : List (Nat × Ev F)) : List Nat :=
  tr.filterMap (fun p => if isClose p.2 then some p.1 else none)

/-- Times of the reconnect attempts of a trace, in order. -/
def fireTimes {F : Type} (tr : List (Nat × Ev F)) : List Nat :=
  tr.filterMap (fun p => if isFire p.2 then some p.1 else none)

/-- One close and reconnect cycle starting at time t: the gateway
closes, the timer fires RECONNECT_DELAY later, the new socket opens. -/
def reconnectCycle (F : Type) (t : Nat) : List (Nat × Ev F) :=
  [(t, Ev.gatewayClose),
   (t + RECONNECT_DELAY, Ev.timerFire true),
   (t + RECONNECT_DELAY, Ev.gatewayOpen)]

/-- N consecutive close and reconnect cycles, the k-th close happening
RECONNECT_DELAY after the previous reconnect. -/
def cycles (F : Type) (t : Nat) : Nat → List (Nat × Ev F)
  | 0 => []
  | Nat.succ n => reconnectCycle F t ++ cycles F (t + RECONNECT_DELAY) n

/-- Invariant of reachable states: a live client implies the alive flag,
at most one reconnect timer is pending, a pending timer implies the
current socket is CLOSED, and a CONNECTING socket has no pending timer
(never more than one connect attempt in flight). -/
def Inv {F : Type} (s : BridgeState F) : Prop :=
  (s.clientOpen = true → s.alive = true) ∧
  s.timers.length ≤ 1 ∧
  (s.timers ≠ [] → s.gatewaySocket = some ReadyState.CLOSED) ∧
  (s.gatewaySocket = some ReadyState.CONNECTING → s.timers = [])

/-- A status frame has the documented shape: the fixed type tag and one
of the three permitted states. -/
def statusWellFormed (st : StatusFrame) : Bool :=
  st.type == "__index_status" &&
  (st.state == "connected" || st.state == "disconnected" || st.state == "error")

/-- Witness state: a fresh connection awaiting the upstream, as set up
by the connection handler. -/
def wAwait : BridgeState Nat :=
  { gatewaySocket := some ReadyState.CONNECTING, buffer := [],
    alive := true, clientOpen := true, timers := [], now := 0 }

/-- Witness state: awaiting the upstream with two frames queued. -/
def wBuf : BridgeState Nat :=
  { gatewaySocket := some ReadyState.CONNECTING, buffer := [3, 4],
    alive := true, clientOpen := true, timers := [], now := 0 }

/-- Witness state: upstream already closed, one reconnect timer pending
for time 3000, client still connected. -/
def wPending : BridgeState Nat :=
  { gatewaySocket := some ReadyState.CLOSED, buffer := [],
    alive := true, clientOpen := true, timers := [3000], now := 0 }

/-- Witness state: dead bridge with one pending timer. -/
def wDead : BridgeState Nat :=
  { gatewaySocket := some ReadyState.CLOSED, buffer := [],
    alive := false, clientOpen := false, timers := [3000], now := 100 }

/-- Witness state: relaying, upstream open, nothing pending. -/
def wOpen : BridgeState Nat :=
  { gatewaySocket := some ReadyState.OPEN, buffer := [],
    alive := true, clientOpen := true, timers := [], now := 0 }

/-- With the constant OPEN oracle (the single-threaded case: the ready
state cannot change during the synchronous forEach) the flush loop
sends every buffered frame, in order. -/
lemma flushFrom_const_open {F : Type} (buf : List F) :
    ∀ i : Nat, flushFrom (fun _ => ReadyState.OPEN) i buf = buf := by
  induction buf with
  | nil => intro i; rfl
  | cons f rest ih => intro i; simp [flushFrom, ih]

/-- A client frame arriving while the gateway socket is not OPEN is
appended to the buffer and nothing is sent. -/
lemma step_cm_not_open {F : Type} (s : BridgeState F) (t : Nat) (f : F)
    (h : s.gatewaySocket ≠ some ReadyState.OPEN) :
    step s t (Ev.clientMessage f) =
      ({ s with buffer := s.buffer ++ [f], now := t }, []) := by
  simp only [step]
  rw [if_neg h]

/-- A client frame arriving while the gateway socket is OPEN is
forwarded to the gateway unmodified, and only the clock changes. -/
lemma step_cm_open {F : Type} (s : BridgeState F) (t : Nat) (f : F)
    (h : s.gatewaySocket = some ReadyState.OPEN) :
    step s t (Ev.clientMessage f) =
      ({ s with now := t }, [Act.sendGateway (WireMsg.relayed f)]) := by
  simp only [step]
  rw [if_pos h]

/-- Validity of a client message event under the stated conditions. -/
lemma validStep_cm {F : Type} (s : BridgeState F) (t : Nat) (f : F)
    (h2 : s.clientOpen = true) (h3 : s.now ≤ t)
    (h4 : s.timers.all (fun d => decide (t ≤ d)) = true) :
    validStep s t (Ev.clientMessage f) = true := by
  simp [validStep, h2, h3, h4]

/-- Running a block of client messages while the gateway socket is not
OPEN: the trace is valid, nothing is sent anywhere, and the whole block
is appended to the buffer in order; all other fields are unchanged and
the clock ends no later than t. -/
lemma run_cm {F : Type} (fs : List F) (s : BridgeState F) (t : Nat)
    (h1 : s.gatewaySocket ≠ some ReadyState.OPEN) (h2 : s.clientOpen = true)
    (h3 : s.now ≤ t) (h4 : s.timers.all (fun d => decide (t ≤ d)) = true) :
    validTrace s (fs.map fun f => (t, Ev.clientMessage f)) = true ∧
    (run s (fs.map fun f => (t, Ev.clientMessage f))).2 = [] ∧
    (run s (fs.map fun f => (t, Ev.clientMessage f))).1.buffer = s.buffer ++ fs ∧
    (run s (fs.map fun f => (t, Ev.clientMessage f))).1.gatewaySocket = s.gatewaySocket ∧
    (run s (fs.map fun f => (t, Ev.clientMessage f))).1.clientOpen = s.clientOpen ∧
    (run s (fs.map fun f => (t, Ev.clientMessage f))).1.alive = s.alive ∧
    (run s (fs.map fun f => (t, Ev.clientMessage f))).1.timers = s.timers ∧
    (run s (fs.map fun f => (t, Ev.clientMessage f))).1.now ≤ t := by
  induction fs generalizing s with
  | nil =>
    exact ⟨rfl, rfl, by simp [run], rfl, rfl, rfl, rfl,
      by simp only [List.map_nil, run]; exact h3⟩
  | cons f fs ih =>
    have hstep := step_cm_not_open s t f h1
    have hvs := validStep_cm s t f h2 h3 h4
    have ih2 := ih { s with buffer := s.buffer ++ [f], now := t }
      (by simpa using h1) (by simpa using h2) (by simp) (by simpa using h4)
    simp only [List.map_cons, validTrace, run, hstep, hvs, Bool.true_and]
    refine ⟨ih2.1, by simpa using ih2.2.1, ?_, by simpa using ih2.2.2.2.1,
      by simpa using ih2.2.2.2.2.1, by simpa using ih2.2.2.2.2.2.1,
      by simpa using ih2.2.2.2.2.2.2.1, ih2.2.2.2.2.2.2.2⟩
    have hb := ih2.2.2.1
    simp only at hb
    rw [hb]
    simp

/-- The gateway open handler in one equation: the socket becomes OPEN,
the connected status is sent first, then the whole buffer is flushed to
the gateway in order, then the buffer is cleared. -/
lemma step_gatewayOpen {F : Type} (s : BridgeState F) (u : Nat) :
    step s u Ev.gatewayOpen =
      ({ s with gatewaySocket := some ReadyState.OPEN, buffer := [], now := u },
       sendStatus { s with gatewaySocket := some ReadyState.OPEN, now := u }
           "connected" ("Gateway live at " ++ GATEWAY_WS)
         ++ s.buffer.map (fun f => Act.sendGateway (WireMsg.relayed f))) := by
  simp only [step, flushSent, flushFrom_const_open]

/-- gatewaySends distributes over action concatenation. -/
lemma gatewaySends_append {F : Type} (a b : List (Act F)) :
    gatewaySends (a ++ b) = gatewaySends a ++ gatewaySends b := by
  simp [gatewaySends]

/-- sendStatus never sends anything to the gateway. -/
lemma gatewaySends_sendStatus {F : Type} (s : BridgeState F) (st msg : String) :
    gatewaySends (sendStatus s st msg) = [] := by
  cases h : s.clientOpen <;> simp [sendStatus, gatewaySends, h]

/-- The gateway sends of a block of relayed gateway sends. -/
lemma gatewaySends_map_relayed {F : Type} (l : List F) :
    gatewaySends (l.map fun f => Act.sendGateway (WireMsg.relayed f)) =
      l.map WireMsg.relayed := by
  induction l with
  | nil => rfl
  | cons f rest ih => simp [gatewaySends] at ih ⊢; exact ih

/-- Claim C1: every client frame arriving while the bridge has no open
upstream socket (AWAITING_UPSTREAM or RECONNECTING) is silently queued,
in order, with nothing sent anywhere; and when the upstream open event
fires, the gateway receives exactly the buffered frames, verbatim and
in the exact order they were queued, none dropped and none duplicated,
after which the buffer is empty. -/
theorem C1_buffered_frames_delivered_in_order {F : Type}
    (s s2 : BridgeState F) (fs : List F) (t u : Nat)
    (h1 : s.gatewaySocket ≠ some ReadyState.OPEN)
    (h2 : s.clientOpen = true)
    (h3 : s.now ≤ t)
    (h4 : s.timers.all (fun d => decide (t ≤ d)) = true) :
    validTrace s (fs.map fun f => (t, Ev.clientMessage f)) = true ∧
    (run s (fs.map fun f => (t, Ev.clientMessage f))).2 = [] ∧
    (run s (fs.map fun f => (t, Ev.clientMessage f))).1.buffer = s.buffer ++ fs ∧
    (step s2 u Ev.gatewayOpen).1.buffer = [] ∧
    gatewaySends (step s2 u Ev.gatewayOpen).2 = s2.buffer.map WireMsg.relayed := by
  obtain ⟨hv, ha, hb, -⟩ := run_cm fs s t h1 h2 h3 h4
  refine ⟨hv, ha, hb, ?_, ?_⟩
  · rw [step_gatewayOpen]
  · rw [step_gatewayOpen]
    simp only [gatewaySends_append, gatewaySends_sendStatus,
      gatewaySends_map_relayed, List.nil_append]

theorem C1_buffered_frames_delivered_in_order_witness :
    (wAwait.gatewaySocket ≠ some ReadyState.OPEN) ∧
    (wAwait.clientOpen = true) ∧
    (wAwait.now ≤ 5) ∧
    (wAwait.timers.all (fun d => decide (5 ≤ d)) = true) ∧
    (validTrace wAwait ([1, 2].map fun f => (5, Ev.clientMessage f)) = true ∧
     (run wAwait ([1, 2].map fun f => (5, Ev.clientMessage f))).2 = [] ∧
     (run wAwait ([1, 2].map fun f => (5, Ev.clientMessage f))).1.buffer =
       wAwait.buffer ++ [1, 2] ∧
     (step wBuf 9 Ev.gatewayOpen).1.buffer = [] ∧
     gatewaySends (step wBuf 9 Ev.gatewayOpen).2 = wBuf.buffer.map WireMsg.relayed) :=
  ⟨by decide, by decide, by decide, by decide,
   C1_buffered_frames_delivered_in_order wAwait wBuf [1, 2] 5 9
     (by decide) (by decide) (by decide) (by decide)⟩

/-- Claim C7: a frame sent by the client before the upstream is open,
followed by the upstream opening, produces exactly two sends: first the
connected status notification to the client, then the frame to the
upstream, exactly once. -/
theorem C7_ping_after_connected_status {F : Type} (s : BridgeState F)
    (f : F) (t u : Nat)
    (h1 : s.gatewaySocket = some ReadyState.CONNECTING)
    (h2 : s.clientOpen = true)
    (hb : s.buffer = [])
    (h3 : s.now ≤ t)
    (h4 : s.timers.all (fun d => decide (t ≤ d)) = true)
    (h5 : t ≤ u)
    (h6 : s.timers.all (fun d => decide (u ≤ d)) = true) :
    validTrace s [(t, Ev.clientMessage f), (u, Ev.gatewayOpen)] = true ∧
    (run s [(t, Ev.clientMessage f), (u, Ev.gatewayOpen)]).2 =
      [Act.sendClient (WireMsg.status
        { type := "__index_status", state := "connected",
          message := "Gateway live at " ++ GATEWAY_WS, ts := u }),
       Act.sendGateway (WireMsg.relayed f)] := by
  have hne : s.gatewaySocket ≠ some ReadyState.OPEN := by rw [h1]; simp
  have hstep := step_cm_not_open s t f hne
  constructor
  · have hv1 := validStep_cm s t f h2 h3 h4
    have hv2 : validStep { s with buffer := s.buffer ++ [f], now := t } u
        Ev.gatewayOpen = true := by
      simp [validStep, h1, h5, h6]
    simp [validTrace, hstep, hv1, hv2]
  · simp only [run, hstep, step_gatewayOpen, sendStatus, hb, h2]
    simp

theorem C7_ping_after_connected_status_witness :
    (wAwait.gatewaySocket = some ReadyState.CONNECTING) ∧
    (wAwait.clientOpen = true) ∧
    (wAwait.buffer = []) ∧
    (wAwait.now ≤ 2) ∧
    (wAwait.timers.all (fun d => decide (2 ≤ d)) = true) ∧
    (2 ≤ 7) ∧
    (wAwait.timers.all (fun d => decide (7 ≤ d)) = true) ∧
    (validTrace wAwait [(2, Ev.clientMessage 42), (7, Ev.gatewayOpen)] = true ∧
     (run wAwait [(2, Ev.clientMessage 42), (7, Ev.gatewayOpen)]).2 =
       [Act.sendClient (WireMsg.status
         { type := "__index_status", state := "connected",
           message := "Gateway live at " ++ GATEWAY_WS, ts := 7 }),
        Act.sendGateway (WireMsg.relayed 42)]) :=
  ⟨by decide, by decide, by decide, by decide, by decide, by decide, by decide,
   C7_ping_after_connected_status wAwait 42 2 7
     (by decide) (by decide) (by decide) (by decide) (by decide) (by decide)
     (by decide)⟩

/-- No handler ever sends a status frame to the gateway: statuses go
through sendStatus, which writes to the client socket only. -/
lemma step_no_status_to_gateway {F : Type} (s : BridgeState F) (t : Nat)
    (e : Ev F) :
    (gatewaySends (step s t e).2).filter (fun m => m.isStatus) = [] := by
  cases e with
  | clientMessage f =>
    by_cases h : s.gatewaySocket = some ReadyState.OPEN
    · simp [step_cm_open s t f h, gatewaySends, WireMsg.isStatus]
    · simp [step_cm_not_open s t f h, gatewaySends]
  | clientClose => simp [step, gatewaySends]
  | gatewayOpen =>
    rw [step_gatewayOpen]
    simp only [gatewaySends_append, gatewaySends_sendStatus,
      gatewaySends_map_relayed, List.nil_append]
    induction s.buffer with
    | nil => rfl
    | cons f rest ih =>
      simp only [List.map_cons, List.filter_cons] at ih ⊢
      simp [WireMsg.isStatus, ih]
  | gatewayMessage f =>
    cases h : s.clientOpen <;> simp [step, h, gatewaySends]
  | gatewayClose =>
    cases h : s.alive <;>
      simp [step, h, gatewaySends_sendStatus]
  | gatewayError m => simp [step, gatewaySends_sendStatus]
  | timerFire ok =>
    cases ok
    · simp only [step, connectGateway, Bool.false_eq_true, if_false]
      rw [gatewaySends_sendStatus]
      rfl
    · simp [step, connectGateway, gatewaySends]

/-- Claim C4: under every sequence of events, no status notification is
ever sent toward the upstream connection: the gateway-directed sends of
any run contain no status frame. -/
theorem C4_status_never_forwarded_upstream {F : Type} (s : BridgeState F)
    (tr : List (Nat × Ev F)) :
    (gatewaySends (run s tr).2).filter (fun m => m.isStatus) = [] := by
  induction tr generalizing s with
  | nil => simp [run, gatewaySends]
  | cons p rest ih =>
    obtain ⟨t, e⟩ := p
    simp [run, gatewaySends_append, List.filter_append,
      step_no_status_to_gateway, ih (step s t e).1]

/-- The client-directed sends of a block of gateway message relays. -/
lemma run_gm {F : Type} (fs : List F) (s : BridgeState F) (t : Nat) :
    (run s (fs.map fun g => (t, Ev.gatewayMessage g))).2 =
      (if s.clientOpen then fs.map (fun g => Act.sendClient (WireMsg.relayed g))
       else []) := by
  induction fs generalizing s with
  | nil => simp [run]
  | cons g gs ih =>
    have hstep : step s t (Ev.gatewayMessage g) =
        ({ s with now := t },
         if s.clientOpen then [Act.sendClient (WireMsg.relayed g)] else []) := by
      by_cases hc : s.clientOpen <;> simp [step, hc]
    simp only [List.map_cons, run, hstep, ih { s with now := t }]
    by_cases hc : s.clientOpen <;> simp [hc]

/-- Claim C5: a frame received from the upstream is forwarded to the
client immediately and verbatim when the client socket is open, and
dropped silently otherwise; the state is untouched apart from the
clock, and a block of upstream frames is forwarded in arrival order. -/
theorem C5_upstream_frames_relayed_verbatim {F : Type} (s : BridgeState F)
    (t : Nat) (f : F) (fs : List F) :
    (step s t (Ev.gatewayMessage f)).2 =
      (if s.clientOpen then [Act.sendClient (WireMsg.relayed f)] else []) ∧
    (step s t (Ev.gatewayMessage f)).1 = { s with now := t } ∧
    (run s (fs.map fun g => (t, Ev.gatewayMessage g))).2 =
      (if s.clientOpen then fs.map (fun g => Act.sendClient (WireMsg.relayed g))
       else []) := by
  refine ⟨?_, ?_, run_gm fs s t⟩ <;>
    cases h : s.clientOpen <;> simp [step, h]

/-- Claim C6: a gateway error (how a failed connect attempt or a
handshake timeout surfaces: the socket emits error and then close) is
reported to the client as a status of state error; it changes nothing
but the clock, in particular it neither touches the client connection
nor the timers, and the close event that follows it behaves exactly as
a close with no preceding error, scheduling the reconnect identically.
The step function is total: no event is fatal. -/
theorem C6_connect_failure_nonfatal {F : Type} (s : BridgeState F)
    (t u : Nat) (m : String) :
    (step s t (Ev.gatewayError m)).1 = { s with now := t } ∧
    (step s t (Ev.gatewayError m)).2 =
      (if s.clientOpen then
        [Act.sendClient (WireMsg.status
          { type := "__index_status", state := "error", message := m, ts := t })]
       else []) ∧
    (run s [(t, Ev.gatewayError m), (u, Ev.gatewayClose)]).1 =
      (step s u Ev.gatewayClose).1 ∧
    (run s [(t, Ev.gatewayError m), (u, Ev.gatewayClose)]).2 =
      (step s t (Ev.gatewayError m)).2 ++ (step s u Ev.gatewayClose).2 := by
  refine ⟨?_, ?_, ?_, ?_⟩
  · rfl
  · cases h : s.clientOpen <;> simp [step, sendStatus, h]
  · cases ha : s.alive <;> simp [run, step, sendStatus, ha]
  · cases ha : s.alive <;> cases hc : s.clientOpen <;>
      simp [run, step, sendStatus, ha, hc]

/-- Every status a single step sends to the client is well formed and
carries the time of the step as its ts field. -/
lemma step_status_shape {F : Type} (s : BridgeState F) (t : Nat) (e : Ev F) :
    ((clientSends (step s t e).2).filterMap WireMsg.getStatus).all
      (fun st => statusWellFormed st && st.ts == t) = true := by
  cases e with
  | clientMessage f =>
    by_cases h : s.gatewaySocket = some ReadyState.OPEN
    · simp [step_cm_open s t f h, clientSends]
    · simp [step_cm_not_open s t f h, clientSends]
  | clientClose => simp [step, clientSends]
  | gatewayOpen =>
    rw [step_gatewayOpen]
    cases h : s.clientOpen <;>
      simp [sendStatus, h, clientSends, WireMsg.getStatus, statusWellFormed,
        List.filterMap_append, List.filterMap_map]
  | gatewayMessage f =>
    cases h : s.clientOpen <;> simp [step, h, clientSends, WireMsg.getStatus]
  | gatewayClose =>
    cases ha : s.alive <;> cases hc : s.clientOpen <;>
      simp [step, sendStatus, ha, hc, clientSends, WireMsg.getStatus,
        statusWellFormed]
  | gatewayError m =>
    cases hc : s.clientOpen <;>
      simp [step, sendStatus, hc, clientSends, WireMsg.getStatus,
        statusWellFormed]
  | timerFire ok =>
    cases ok <;> cases hc : s.clientOpen <;>
      simp [step, connectGateway, sendStatus, hc, clientSends,
        WireMsg.getStatus, statusWellFormed]

/-- Claim C8: every status notification the bridge ever sends to the
client is the JSON object with exactly the fields type, state, message
and ts (the StatusFrame record), its type tag is the fixed marker, its
state is one of connected, disconnected, error, and its ts is the epoch
time of the step that emitted it. -/
theorem C8_status_notification_shape {F : Type} (s : BridgeState F)
    (tr : List (Nat × Ev F)) (t : Nat) (e : Ev F) :
    ((clientSends (run s tr).2).filterMap WireMsg.getStatus).all
      statusWellFormed = true ∧
    ((clientSends (step s t e).2).filterMap WireMsg.getStatus).all
      (fun st => st.ts == t) = true := by
  constructor
  · induction tr generalizing s with
    | nil => simp [run, clientSends]
    | cons p rest ih =>
      obtain ⟨u, ev⟩ := p
      have hs := step_status_shape s u ev
      simp only [List.all_eq_true, Bool.and_eq_true] at hs
      simp only [run, clientSends, List.filterMap_append, List.all_append]
      rw [Bool.and_eq_true]
      constructor
      · simp only [List.all_eq_true]
        intro st hst
        exact (hs st hst).1
      · exact ih (step s u ev).1
  · have hs := step_status_shape s t e
    simp only [List.all_eq_true, Bool.and_eq_true] at hs
    simp only [List.all_eq_true]
    intro st hst
    exact (hs st hst).2

/-- The alive flag after a step: it is cleared by clientClose and never
changed, in particular never set back to true, by any other event. -/
lemma step_alive {F : Type} (s : BridgeState F) (t : Nat) (e : Ev F) :
    (step s t e).1.alive = (s.alive && !isClientCloseEv e) := by
  cases e with
  | clientMessage f =>
    by_cases h : s.gatewaySocket = some ReadyState.OPEN <;>
      simp [step, h, isClientCloseEv]
  | clientClose => simp [step, isClientCloseEv]
  | gatewayOpen => simp [step, isClientCloseEv]
  | gatewayMessage f =>
    by_cases h : s.clientOpen <;> simp [step, h, isClientCloseEv]
  | gatewayClose =>
    by_cases h : s.alive <;> simp [step, h, isClientCloseEv]
  | gatewayError m => simp [step, isClientCloseEv]
  | timerFire ok => cases ok <;> simp [step, connectGateway, isClientCloseEv]

/-- The clientOpen flag after a step: cleared by clientClose, otherwise
unchanged; nothing ever reopens the client socket. -/
lemma step_clientOpen {F : Type} (s : BridgeState F) (t : Nat) (e : Ev F) :
    (step s t e).1.clientOpen = (s.clientOpen && !isClientCloseEv e) := by
  cases e with
  | clientMessage f =>
    by_cases h : s.gatewaySocket = some ReadyState.OPEN <;>
      simp [step, h, isClientCloseEv]
  | clientClose => simp [step, isClientCloseEv]
  | gatewayOpen => simp [step, isClientCloseEv]
  | gatewayMessage f =>
    by_cases h : s.clientOpen <;> simp [step, h, isClientCloseEv]
  | gatewayClose =>
    by_cases h : s.alive <;> simp [step, h, isClientCloseEv]
  | gatewayError m => simp [step, isClientCloseEv]
  | timerFire ok => cases ok <;> simp [step, connectGateway, isClientCloseEv]

/-- A valid timer firing consumes a deadline that is really pending. -/
lemma validStep_fire_mem {F : Type} (s : BridgeState F) (t : Nat) (ok : Bool)
    (h : validStep s t (Ev.timerFire ok) = true) : t ∈ s.timers := by
  simp only [validStep, Bool.and_eq_true, decide_eq_true_eq] at h
  exact h.2

/-- Once the alive flag is false, no step schedules a timer: the timer
list is unchanged, except that a firing timer consumes its deadline. -/
lemma step_timers_dead {F : Type} (s : BridgeState F) (t : Nat) (e : Ev F)
    (h : s.alive = false) :
    (isFire e = false ∧ (step s t e).1.timers = s.timers) ∨
    (isFire e = true ∧ (step s t e).1.timers = s.timers.erase t) := by
  cases e with
  | clientMessage f =>
    by_cases hg : s.gatewaySocket = some ReadyState.OPEN <;>
      simp [step, hg, isFire]
  | clientClose => simp [step, isFire]
  | gatewayOpen => simp [step, isFire]
  | gatewayMessage f =>
    by_cases hc : s.clientOpen <;> simp [step, hc, isFire]
  | gatewayClose => simp [step, h, isFire]
  | gatewayError m => simp [step, isFire]
  | timerFire ok =>
    cases ok <;> simp [step, connectGateway, isFire]

/-- After the alive flag is cleared, every valid trace makes at most as
many reconnect attempts as there were deadlines already pending when
the flag fell, and never adds a deadline: attempts plus still-pending
deadlines exactly account for the initially pending ones. -/
lemma dead_run {F : Type} (tr : List (Nat × Ev F)) : ∀ s : BridgeState F,
    s.alive = false → validTrace s tr = true →
    countFires tr + (run s tr).1.timers.length = s.timers.length ∧
    (run s tr).1.alive = false := by
  induction tr with
  | nil => intro s h _; exact ⟨by simp [countFires, run], by simp [run, h]⟩
  | cons p rest ih =>
    intro s h hv
    obtain ⟨t, e⟩ := p
    simp only [validTrace, Bool.and_eq_true] at hv
    have ha : (step s t e).1.alive = false := by
      rw [step_alive, h]; rfl
    have ihr := ih (step s t e).1 ha hv.2
    have hrun1 : (run s ((t, e) :: rest)).1 = (run (step s t e).1 rest).1 := rfl
    rcases step_timers_dead s t e h with ⟨hf, htim⟩ | ⟨hf, htim⟩
    · have hcf : countFires ((t, e) :: rest) = countFires rest := by
        simp [countFires, hf]
      have heq := ihr.1
      rw [htim] at heq
      rw [hrun1, hcf]
      exact ⟨heq, ihr.2⟩
    · have hmem : t ∈ s.timers := by
        cases e <;> simp [isFire] at hf
        case timerFire ok => exact validStep_fire_mem s t ok hv.1
      have hcf : countFires ((t, e) :: rest) = 1 + countFires rest := by
        simp only [countFires, List.filter_cons, hf, if_pos]
        simp [Nat.add_comm]
      have hlen := List.length_erase_of_mem hmem
      have hpos : 0 < s.timers.length := List.length_pos_of_mem hmem
      have heq := ihr.1
      rw [htim] at heq
      rw [hrun1, hcf]
      exact ⟨by omega, ihr.2⟩

/-- Counterexample to claim C2 as stated: starting from the freshly
accepted connection, the gateway socket fails (close at time 0), which
schedules a reconnect timer for time 3000; the browser disconnects at
time 1000, yet the timer is still pending afterwards (the close handler
never cancels it, the timeout id is not even kept), and at time 3000
the timer validly fires and opens a brand new upstream connect attempt
(a CONNECTING socket) although the inbound connection is long gone. -/
theorem C2_counterexample :
    validTrace (acceptConnection Nat).1
      [(0, Ev.gatewayClose), (1000, Ev.clientClose),
       (3000, Ev.timerFire true)] = true ∧
    (run (acceptConnection Nat).1
      [(0, Ev.gatewayClose), (1000, Ev.clientClose)]).1.timers = [3000] ∧
    (run (acceptConnection Nat).1
      [(0, Ev.gatewayClose), (1000, Ev.clientClose),
       (3000, Ev.timerFire true)]).1.gatewaySocket =
      some ReadyState.CONNECTING := by
  decide

/-- Claim C2 amended: when the inbound connection closes, the bridge
clears the alive flag, marks the client socket closed, and calls close
on the upstream socket if there is one; it does NOT cancel a pending
reconnect timer — the timer list is untouched — so an already pending
timer may still fire and make further connect attempts, but only as
many as were pending at close time, and a gateway close arriving after
the inbound close schedules no new timer. -/
theorem C2_close_cleans_socket_not_timer {F : Type} (s : BridgeState F)
    (t t2 : Nat) (tr : List (Nat × Ev F))
    (hv : validTrace (step s t Ev.clientClose).1 tr = true) :
    (step s t Ev.clientClose).1.alive = false ∧
    (step s t Ev.clientClose).1.clientOpen = false ∧
    (step s t Ev.clientClose).1.gatewaySocket = s.gatewaySocket.map closeSock ∧
    (step s t Ev.clientClose).1.timers = s.timers ∧
    countFires tr ≤ s.timers.length ∧
    (step (step s t Ev.clientClose).1 t2 Ev.gatewayClose).1.timers = s.timers := by
  refine ⟨rfl, rfl, rfl, rfl, ?_, ?_⟩
  · have hd := dead_run tr (step s t Ev.clientClose).1 rfl hv
    have := hd.1
    simp only [step] at this
    omega
  · simp [step]

theorem C2_close_cleans_socket_not_timer_witness :
    (validTrace (step wPending 100 Ev.clientClose).1
      [(3000, Ev.timerFire true)] = true) ∧
    ((step wPending 100 Ev.clientClose).1.alive = false ∧
     (step wPending 100 Ev.clientClose).1.clientOpen = false ∧
     (step wPending 100 Ev.clientClose).1.gatewaySocket =
       wPending.gatewaySocket.map closeSock ∧
     (step wPending 100 Ev.clientClose).1.timers = wPending.timers ∧
     countFires [((3000 : Nat), (Ev.timerFire true : Ev Nat))] ≤
       wPending.timers.length ∧
     (step (step wPending 100 Ev.clientClose).1 200 Ev.gatewayClose).1.timers =
       wPending.timers) :=
  ⟨by decide,
   C2_close_cleans_socket_not_timer wPending 100 200
     [(3000, Ev.timerFire true)] (by decide)⟩

/-- Claim C10: the alive flag is cleared exactly by the clientClose
event and no event ever sets it back; the client socket likewise never
reopens; once the flag is down no step grows the timer list, and any
valid trace from a dead state makes exactly as many reconnect attempts
as deadlines it consumes from the timers pending at close time — hence
with at most one pending timer, at most one further connect attempt,
and the close of that attempt schedules nothing. -/
theorem C10_liveness_flag_falls_once {F : Type} (s : BridgeState F)
    (t : Nat) (e : Ev F) (tr : List (Nat × Ev F))
    (hdead : s.alive = false) (hlen : s.timers.length ≤ 1)
    (hv : validTrace s tr = true) :
    (∀ (s2 : BridgeState F) (t2 : Nat) (e2 : Ev F),
       (step s2 t2 e2).1.alive = (s2.alive && !isClientCloseEv e2)) ∧
    (∀ (s2 : BridgeState F) (t2 : Nat) (e2 : Ev F),
       (step s2 t2 e2).1.clientOpen = (s2.clientOpen && !isClientCloseEv e2)) ∧
    (step s t e).1.alive = false ∧
    (step s t e).1.timers.length ≤ s.timers.length ∧
    countFires tr + (run s tr).1.timers.length = s.timers.length ∧
    countFires tr ≤ 1 := by
  have hd := dead_run tr s hdead hv
  refine ⟨step_alive, step_clientOpen, ?_, ?_, hd.1, by omega⟩
  · rw [step_alive, hdead]; rfl
  · rcases step_timers_dead s t e hdead with ⟨-, htim⟩ | ⟨-, htim⟩
    · rw [htim]
    · rw [htim]
      exact List.length_erase_le t s.timers

theorem C10_liveness_flag_falls_once_witness :
    (wDead.alive = false) ∧
    (wDead.timers.length ≤ 1) ∧
    (validTrace wDead [(3000, Ev.timerFire true)] = true) ∧
    ((∀ (s2 : BridgeState Nat) (t2 : Nat) (e2 : Ev Nat),
        (step s2 t2 e2).1.alive = (s2.alive && !isClientCloseEv e2)) ∧
     (∀ (s2 : BridgeState Nat) (t2 : Nat) (e2 : Ev Nat),
        (step s2 t2 e2).1.clientOpen = (s2.clientOpen && !isClientCloseEv e2)) ∧
     (step wDead 150 (Ev.gatewayMessage 0)).1.alive = false ∧
     (step wDead 150 (Ev.gatewayMessage 0)).1.timers.length ≤
       wDead.timers.length ∧
     countFires [((3000 : Nat), (Ev.timerFire true : Ev Nat))] +
       (run wDead [(3000, Ev.timerFire true)]).1.timers.length =
       wDead.timers.length ∧
     countFires [((3000 : Nat), (Ev.timerFire true : Ev Nat))] ≤ 1) :=
  ⟨by decide, by decide, by decide,
   C10_liveness_flag_falls_once wDead 150 (Ev.gatewayMessage 0)
     [(3000, Ev.timerFire true)] (by decide) (by decide) (by decide)⟩

/-- If the per-iteration ready-state reads are OPEN exactly below index
k, the flush loop sends exactly the first k frames, skipping the rest. -/
lemma flushFrom_take {F : Type} (rsAt : Nat → ReadyState) (k : Nat) :
    ∀ (buf : List F) (i : Nat),
    (∀ j, j < buf.length → (rsAt (i + j) = ReadyState.OPEN ↔ i + j < k)) →
    flushFrom rsAt i buf = buf.take (k - i) := by
  intro buf
  induction buf with
  | nil => intro i _; simp [flushFrom]
  | cons f rest ih =>
    intro i h
    have h0 : rsAt i = ReadyState.OPEN ↔ i < k := by
      have := h 0 (by simp)
      simpa using this
    have hrec : ∀ j, j < rest.length →
        (rsAt (i + 1 + j) = ReadyState.OPEN ↔ i + 1 + j < k) := by
      intro j hj
      have hj1 : j + 1 < (f :: rest).length := by simp; omega
      have := h (j + 1) hj1
      have harith : i + (j + 1) = i + 1 + j := by omega
      rwa [harith] at this
    by_cases hik : i < k
    · have hopen : rsAt i = ReadyState.OPEN := h0.mpr hik
      have hk : k - i = (k - (i + 1)) + 1 := by omega
      simp only [flushFrom, if_pos hopen, ih (i + 1) hrec, hk, List.take_succ_cons]
    · have hnot : ¬ rsAt i = ReadyState.OPEN := fun hh => hik (h0.mp hh)
      have hk1 : k - (i + 1) = 0 := by omega
      have hk2 : k - i = 0 := by omega
      simp only [flushFrom, if_neg hnot, ih (i + 1) hrec, hk1, hk2,
        List.take_zero]

/-- Claim C9: if the gateway socket is observed OPEN only for the first
k iterations of the flush loop (it leaves the open state mid-flush),
the frames from index k on are skipped — they are not sent and not
re-buffered — and the open handler clears the buffer unconditionally
afterwards, so the skipped frames are permanently lost. -/
theorem C9_flush_skips_and_clears {F : Type} (rsAt : Nat → ReadyState)
    (buf : List F) (k : Nat)
    (h : ∀ j, j < buf.length → (rsAt j = ReadyState.OPEN ↔ j < k)) :
    flushSent rsAt buf = buf.take k ∧
    (∀ (s : BridgeState F) (t : Nat),
      (step s t Ev.gatewayOpen).1.buffer = []) := by
  constructor
  · have := flushFrom_take rsAt k buf 0 (by intro j hj; simpa using h j hj)
    simpa [flushSent] using this
  · intro s t
    rw [step_gatewayOpen]

theorem C9_flush_skips_and_clears_witness :
    (∀ j, j < ([10, 20, 30] : List Nat).length →
      ((if j = 0 then ReadyState.OPEN else ReadyState.CLOSED) =
        ReadyState.OPEN ↔ j < 1)) ∧
    (flushSent (fun j => if j = 0 then ReadyState.OPEN else ReadyState.CLOSED)
        ([10, 20, 30] : List Nat) = [10, 20, 30].take 1 ∧
     (∀ (s : BridgeState Nat) (t : Nat),
       (step s t Ev.gatewayOpen).1.buffer = [])) :=
  ⟨by decide,
   C9_flush_skips_and_clears
     (fun j => if j = 0 then ReadyState.OPEN else ReadyState.CLOSED)
     [10, 20, 30] 1 (by decide)⟩

/-- Trace validity splits across concatenation. -/
lemma validTrace_append {F : Type} (a : List (Nat × Ev F)) :
    ∀ (b : List (Nat × Ev F)) (s : BridgeState F),
    validTrace s (a ++ b) = (validTrace s a && validTrace (run s a).1 b) := by
  induction a with
  | nil => intro b s; simp [validTrace, run]
  | cons p rest ih =>
    intro b s
    obtain ⟨t, e⟩ := p
    have hrr : (run s ((t, e) :: rest)).1 = (run (step s t e).1 rest).1 := rfl
    simp only [List.cons_append, validTrace, hrr, List.append_eq]
    rw [ih b (step s t e).1, Bool.and_assoc]

/-- The final state of a concatenated trace. -/
lemma run_fst_append {F : Type} (a : List (Nat × Ev F)) :
    ∀ (b : List (Nat × Ev F)) (s : BridgeState F),
    (run s (a ++ b)).1 = (run (run s a).1 b).1 := by
  induction a with
  | nil => intro b s; simp [run]
  | cons p rest ih =>
    intro b s
    obtain ⟨t, e⟩ := p
    simp only [List.cons_append, run]
    exact ih b (step s t e).1

/-- One full close and reconnect cycle from a relaying state: it is a
valid sequence of events, and it returns the bridge to a relaying state
whose clock advanced by exactly the fixed delay; buffer and timers end
empty and the flags are untouched. -/
lemma run_reconnectCycle {F : Type} (s : BridgeState F) (t : Nat)
    (h1 : s.gatewaySocket = some ReadyState.OPEN) (h2 : s.alive = true)
    (h4 : s.timers = []) (h5 : s.now ≤ t) :
    validTrace s (reconnectCycle F t) = true ∧
    (run s (reconnectCycle F t)).1 =
      { s with gatewaySocket := some ReadyState.OPEN, buffer := [],
               timers := [], now := t + RECONNECT_DELAY } := by
  constructor
  · simp [reconnectCycle, validTrace, validStep, step, connectGateway,
      h1, h2, h4, h5]
  · simp [reconnectCycle, run, step, connectGateway, h2, h4,
      step_gatewayOpen]

/-- N consecutive cycles are valid and return to a relaying state. -/
lemma run_cycles {F : Type} : ∀ (N : Nat) (s : BridgeState F) (t : Nat),
    s.gatewaySocket = some ReadyState.OPEN → s.alive = true →
    s.clientOpen = true → s.timers = [] → s.now ≤ t →
    validTrace s (cycles F t N) = true ∧
    (run s (cycles F t N)).1.gatewaySocket = some ReadyState.OPEN ∧
    (run s (cycles F t N)).1.alive = true ∧
    (run s (cycles F t N)).1.clientOpen = true ∧
    (run s (cycles F t N)).1.timers = [] := by
  intro N
  induction N with
  | zero =>
    intro s t h1 h2 h3 h4 _
    exact ⟨rfl, by simp [cycles, run, h1], by simp [cycles, run, h2],
      by simp [cycles, run, h3], by simp [cycles, run, h4]⟩
  | succ n ih =>
    intro s t h1 h2 h3 h4 h5
    obtain ⟨hcv, hcs⟩ := run_reconnectCycle s t h1 h2 h4 h5
    have hnext := ih
      (⟨some ReadyState.OPEN, [], s.alive, s.clientOpen, [],
        t + RECONNECT_DELAY⟩ : BridgeState F)
      (t + RECONNECT_DELAY) rfl h2 h3 rfl (Nat.le_refl _)
    have hcyc : cycles F t (n + 1) =
        reconnectCycle F t ++ cycles F (t + RECONNECT_DELAY) n := rfl
    constructor
    · rw [hcyc, validTrace_append, hcv, hcs, Bool.true_and]
      exact hnext.1
    · rw [hcyc, run_fst_append, hcs]
      exact hnext.2

/-- Fire counting distributes over trace concatenation. -/
lemma countFires_append {F : Type} (a b : List (Nat × Ev F)) :
    countFires (a ++ b) = countFires a + countFires b := by
  simp [countFires, List.filter_append]

/-- Close counting distributes over trace concatenation. -/
lemma countCloses_append {F : Type} (a b : List (Nat × Ev F)) :
    countCloses (a ++ b) = countCloses a + countCloses b := by
  simp [countCloses, List.filter_append]

/-- Fire times distribute over trace concatenation. -/
lemma fireTimes_append {F : Type} (a b : List (Nat × Ev F)) :
    fireTimes (a ++ b) = fireTimes a ++ fireTimes b := by
  simp [fireTimes]

/-- Close times distribute over trace concatenation. -/
lemma closeTimes_append {F : Type} (a b : List (Nat × Ev F)) :
    closeTimes (a ++ b) = closeTimes a ++ closeTimes b := by
  simp [closeTimes]

/-- Counting the cycle traces: N cycles contain exactly N closes and N
reconnect attempts, and each attempt happens exactly RECONNECT_DELAY
after its close. -/
lemma counts_cycles {F : Type} : ∀ (N t : Nat),
    countFires (cycles F t N) = N ∧
    countCloses (cycles F t N) = N ∧
    fireTimes (cycles F t N) =
      (closeTimes (cycles F t N)).map (fun u => u + RECONNECT_DELAY) := by
  intro N
  induction N with
  | zero => intro t; exact ⟨rfl, rfl, rfl⟩
  | succ n ih =>
    intro t
    obtain ⟨ihf, ihc, iht⟩ := ih (t + RECONNECT_DELAY)
    have hcyc : cycles F t (n + 1) =
        reconnectCycle F t ++ cycles F (t + RECONNECT_DELAY) n := rfl
    have hf1 : countFires (reconnectCycle F t) = 1 := rfl
    have hc1 : countCloses (reconnectCycle F t) = 1 := rfl
    have hft : fireTimes (reconnectCycle F t) = [t + RECONNECT_DELAY] := rfl
    have hct : closeTimes (reconnectCycle F t) = [t] := rfl
    refine ⟨?_, ?_, ?_⟩
    · rw [hcyc, countFires_append, hf1, ihf]; omega
    · rw [hcyc, countCloses_append, hc1, ihc]; omega
    · rw [hcyc, fireTimes_append, closeTimes_append, List.map_append,
        iht, hft, hct]
      rfl

/-- Timer bookkeeping of a step while the bridge is alive and the event
is not the client closing: a gateway close appends exactly one deadline,
a timer firing consumes its deadline, and every other event leaves the
timer list untouched. -/
lemma step_timers_alive {F : Type} (s : BridgeState F) (t : Nat) (e : Ev F)
    (ha : s.alive = true) (hncc : isClientCloseEv e = false) :
    (isFire e = false ∧ isClose e = false ∧ (step s t e).1.timers = s.timers) ∨
    (isClose e = true ∧
      (step s t e).1.timers = s.timers ++ [t + RECONNECT_DELAY]) ∨
    (isFire e = true ∧ (step s t e).1.timers = s.timers.erase t) := by
  cases e with
  | clientMessage f =>
    by_cases hg : s.gatewaySocket = some ReadyState.OPEN <;>
      simp [step, hg, isFire, isClose]
  | clientClose => simp [isClientCloseEv] at hncc
  | gatewayOpen => simp [step, isFire, isClose]
  | gatewayMessage f =>
    by_cases hc : s.clientOpen <;> simp [step, hc, isFire, isClose]
  | gatewayClose => simp [step, ha, isFire, isClose]
  | gatewayError m => simp [step, isFire, isClose]
  | timerFire ok =>
    cases ok <;> simp [step, connectGateway, isFire, isClose]

/-- While the client stays connected, reconnect attempts and pending
deadlines exactly account for the gateway closes: every close schedules
one attempt and every attempt consumes one scheduled deadline. -/
lemma fires_eq_closes {F : Type} (tr : List (Nat × Ev F)) :
    ∀ s : BridgeState F, s.alive = true → noClientClose tr = true →
    validTrace s tr = true →
    countFires tr + (run s tr).1.timers.length =
      countCloses tr + s.timers.length := by
  induction tr with
  | nil => intro s _ _ _; simp [countFires, countCloses, run]
  | cons p rest ih =>
    intro s ha hncc hv
    obtain ⟨t, e⟩ := p
    simp only [noClientClose, List.all_cons, Bool.and_eq_true] at hncc
    have hncc1 : isClientCloseEv e = false := by
      cases hne : isClientCloseEv e
      · rfl
      · rw [hne] at hncc; simp at hncc
    have hnccr : noClientClose rest = true := by
      simpa [noClientClose] using hncc.2
    simp only [validTrace, Bool.and_eq_true] at hv
    have ha2 : (step s t e).1.alive = true := by
      rw [step_alive, ha, hncc1]; rfl
    have ihr := ih (step s t e).1 ha2 hnccr hv.2
    have hrun1 : (run s ((t, e) :: rest)).1 = (run (step s t e).1 rest).1 := rfl
    rcases step_timers_alive s t e ha hncc1 with ⟨hf, hc, htim⟩ |
      ⟨hc, htim⟩ | ⟨hf, htim⟩
    · have hcf : countFires ((t, e) :: rest) = countFires rest := by
        simp [countFires, hf]
      have hcc : countCloses ((t, e) :: rest) = countCloses rest := by
        simp [countCloses, hc]
      have heq := ihr
      rw [htim] at heq
      rw [hrun1, hcf, hcc]
      exact heq
    · have hf : isFire e = false := by
        cases e <;> simp [isFire, isClose] at hc ⊢
      have hcf : countFires ((t, e) :: rest) = countFires rest := by
        simp [countFires, hf]
      have hcc : countCloses ((t, e) :: rest) = 1 + countCloses rest := by
        simp only [countCloses, List.filter_cons, hc, if_pos]
        simp [Nat.add_comm]
      have heq := ihr
      rw [htim] at heq
      simp only [List.length_append, List.length_cons, List.length_nil] at heq
      rw [hrun1, hcf, hcc]
      omega
    · have hc2 : isClose e = false := by
        cases e <;> simp [isFire, isClose] at hf ⊢
      have hcf : countFires ((t, e) :: rest) = 1 + countFires rest := by
        simp only [countFires, List.filter_cons, hf, if_pos]
        simp [Nat.add_comm]
      have hcc : countCloses ((t, e) :: rest) = countCloses rest := by
        simp [countCloses, hc2]
      have hmem : t ∈ s.timers := by
        cases e <;> simp [isFire] at hf
        case timerFire ok => exact validStep_fire_mem s t ok hv.1
      have hlen := List.length_erase_of_mem hmem
      have hpos : 0 < s.timers.length := List.length_pos_of_mem hmem
      have heq := ihr
      rw [htim] at heq
      rw [hrun1, hcf, hcc]
      omega

/-- A state with the same four invariant-relevant fields as an
invariant state satisfies the invariant. -/
lemma Inv_of_fields {F : Type} {s s2 : BridgeState F} (hInv : Inv s)
    (hg : s2.gatewaySocket = s.gatewaySocket) (ht : s2.timers = s.timers)
    (hc : s2.clientOpen = s.clientOpen) (ha : s2.alive = s.alive) :
    Inv s2 := by
  obtain ⟨i1, i2, i3, i4⟩ := hInv
  refine ⟨fun h => ?_, ?_, fun h => ?_, fun h => ?_⟩
  · rw [hc] at h; rw [ha]; exact i1 h
  · rw [ht]; exact i2
  · rw [ht] at h; rw [hg]; exact i3 h
  · rw [hg] at h; rw [ht]; exact i4 h

/-- Explicit form of the clientClose step. -/
lemma step_clientClose_eq {F : Type} (s : BridgeState F) (t : Nat) :
    (step s t Ev.clientClose).1 =
      { s with clientOpen := false, alive := false,
               gatewaySocket := s.gatewaySocket.map closeSock, now := t } := rfl

/-- Explicit form of the gatewayClose step while alive. -/
lemma step_gatewayClose_alive {F : Type} (s : BridgeState F) (t : Nat)
    (ha : s.alive = true) :
    (step s t Ev.gatewayClose).1 =
      { s with gatewaySocket := some ReadyState.CLOSED,
               timers := s.timers ++ [t + RECONNECT_DELAY], now := t } := by
  simp [step, ha]

/-- Explicit form of the gatewayClose step when dead. -/
lemma step_gatewayClose_dead {F : Type} (s : BridgeState F) (t : Nat)
    (ha : s.alive = false) :
    (step s t Ev.gatewayClose).1 =
      { s with gatewaySocket := some ReadyState.CLOSED, now := t } := by
  simp [step, ha]

/-- Explicit form of the timer firing step. -/
lemma step_timerFire_eq {F : Type} (s : BridgeState F) (t : Nat) (ok : Bool) :
    (step s t (Ev.timerFire ok)).1 =
      (if ok then
        { s with gatewaySocket := some ReadyState.CONNECTING,
                 timers := s.timers.erase t, now := t }
       else { s with timers := s.timers.erase t, now := t }) := by
  cases ok <;> simp [step, connectGateway]

/-- The reachability invariant is preserved by every valid step. -/
lemma Inv_step {F : Type} (s : BridgeState F) (t : Nat) (e : Ev F)
    (hInv : Inv s) (hv : validStep s t e = true) : Inv (step s t e).1 := by
  obtain ⟨i1, i2, i3, i4⟩ := hInv
  cases e with
  | clientMessage f =>
    by_cases hg : s.gatewaySocket = some ReadyState.OPEN
    · exact Inv_of_fields ⟨i1, i2, i3, i4⟩
        (by simp [step_cm_open s t f hg]) (by simp [step_cm_open s t f hg])
        (by simp [step_cm_open s t f hg]) (by simp [step_cm_open s t f hg])
    · exact Inv_of_fields ⟨i1, i2, i3, i4⟩
        (by simp [step_cm_not_open s t f hg])
        (by simp [step_cm_not_open s t f hg])
        (by simp [step_cm_not_open s t f hg])
        (by simp [step_cm_not_open s t f hg])
  | clientClose =>
    rw [step_clientClose_eq]
    refine ⟨fun h => by simp at h, by simpa using i2, fun hne => ?_,
      fun hco => ?_⟩
    · have h3 := i3 (by simpa using hne)
      simp only [h3]
      rfl
    · exfalso
      have hco2 : s.gatewaySocket.map closeSock =
          some ReadyState.CONNECTING := hco
      cases hs : s.gatewaySocket with
      | none => rw [hs] at hco2; simp at hco2
      | some rs =>
        rw [hs] at hco2
        cases rs <;> simp [closeSock] at hco2
  | gatewayOpen =>
    have hconn : s.gatewaySocket = some ReadyState.CONNECTING := by
      simp only [validStep, Bool.and_eq_true, decide_eq_true_eq] at hv
      exact hv.2
    have htim := i4 hconn
    rw [step_gatewayOpen]
    refine ⟨fun h => by simpa using i1 (by simpa using h), ?_,
      fun hne => ?_, fun hco => ?_⟩
    · simp [htim]
    · exfalso; simp [htim] at hne
    · exfalso; simp at hco
  | gatewayMessage f =>
    have hstep : (step s t (Ev.gatewayMessage f)).1 = { s with now := t } := by
      by_cases hc : s.clientOpen <;> simp [step, hc]
    exact Inv_of_fields ⟨i1, i2, i3, i4⟩ (by simp [hstep]) (by simp [hstep])
      (by simp [hstep]) (by simp [hstep])
  | gatewayClose =>
    have hnc : s.gatewaySocket ≠ some ReadyState.CLOSED := by
      simp only [validStep, Bool.and_eq_true, decide_eq_true_eq] at hv
      exact hv.2.2
    have htim : s.timers = [] := by
      by_cases h : s.timers = []
      · exact h
      · exact absurd (i3 h) hnc
    by_cases ha : s.alive
    · rw [step_gatewayClose_alive s t ha]
      refine ⟨fun _ => ha, ?_, fun _ => rfl, fun hco => ?_⟩
      · simp [htim]
      · exfalso; simp at hco
    · rw [step_gatewayClose_dead s t (by simpa using ha)]
      refine ⟨fun h => i1 h, ?_,
        fun _ => rfl, fun hco => ?_⟩
      · simpa using i2
      · exfalso; simp at hco
  | gatewayError m =>
    have hstep : (step s t (Ev.gatewayError m)).1 = { s with now := t } := rfl
    exact Inv_of_fields ⟨i1, i2, i3, i4⟩ (by simp [hstep]) (by simp [hstep])
      (by simp [hstep]) (by simp [hstep])
  | timerFire ok =>
    have hmem : t ∈ s.timers := validStep_fire_mem s t ok hv
    have hsingle : s.timers = [t] := by
      cases hts : s.timers with
      | nil => rw [hts] at hmem; cases hmem
      | cons a l =>
        cases l with
        | nil =>
          rw [hts] at hmem
          simp only [List.mem_singleton] at hmem
          rw [hmem]
        | cons b l2 =>
          rw [hts] at i2
          simp at i2
    have herase : s.timers.erase t = [] := by
      rw [hsingle]; simp
    rw [step_timerFire_eq]
    cases ok with
    | true =>
      simp only [if_pos]
      refine ⟨fun h => by simpa using i1 (by simpa using h), ?_,
        fun hne => ?_, fun _ => ?_⟩
      · simp [herase]
      · exfalso; simp [herase] at hne
      · simp [herase]
    | false =>
      simp only [Bool.false_eq_true, if_false]
      refine ⟨fun h => by simpa using i1 (by simpa using h), ?_,
        fun hne => ?_, fun hco => ?_⟩
      · simp [herase]
      · exfalso; simp [herase] at hne
      · simp [herase]

/-- The reachability invariant holds along every valid trace. -/
lemma Inv_run {F : Type} (tr : List (Nat × Ev F)) : ∀ s : BridgeState F,
    Inv s → validTrace s tr = true → Inv (run s tr).1 := by
  induction tr with
  | nil => intro s h _; simpa [run] using h
  | cons p rest ih =>
    intro s h hv
    obtain ⟨t, e⟩ := p
    simp only [validTrace, Bool.and_eq_true] at hv
    exact ih (step s t e).1 (Inv_step s t e h hv.1) hv.2

/-- Claim C3: from a relaying state, N consecutive upstream closes give
a valid behaviour with exactly N reconnect attempts, each scheduled and
fired exactly RECONNECT_DELAY after its close (fixed constant delay, no
jitter), for every N with the client still connected afterwards (no
maximum retry count); moreover along ANY valid trace without a client
close, attempts and pending deadlines exactly account for the closes
(one attempt per close, none extra), and along any valid trace at most
one reconnect deadline is ever pending and a socket in the CONNECTING
state excludes any pending deadline — never more than one upstream
connect attempt in flight. -/
theorem C3_fixed_delay_reconnect {F : Type} (s : BridgeState F) (t N : Nat)
    (h1 : s.gatewaySocket = some ReadyState.OPEN) (h2 : s.alive = true)
    (h3 : s.clientOpen = true) (h4 : s.timers = []) (h5 : s.now ≤ t) :
    validTrace s (cycles F t N) = true ∧
    countCloses (cycles F t N) = N ∧
    countFires (cycles F t N) = N ∧
    fireTimes (cycles F t N) =
      (closeTimes (cycles F t N)).map (fun u => u + RECONNECT_DELAY) ∧
    (run s (cycles F t N)).1.gatewaySocket = some ReadyState.OPEN ∧
    (run s (cycles F t N)).1.alive = true ∧
    (run s (cycles F t N)).1.clientOpen = true ∧
    (run s (cycles F t N)).1.timers = [] ∧
    (∀ tr : List (Nat × Ev F), noClientClose tr = true →
      validTrace s tr = true →
      countFires tr + (run s tr).1.timers.length = countCloses tr) ∧
    (∀ tr : List (Nat × Ev F), validTrace s tr = true →
      (run s tr).1.timers.length ≤ 1 ∧
      ((run s tr).1.gatewaySocket = some ReadyState.CONNECTING →
        (run s tr).1.timers = [])) := by
  obtain ⟨hv, hg, ha, hc, ht⟩ := run_cycles N s t h1 h2 h3 h4 h5
  obtain ⟨hf, hcl, hft⟩ := counts_cycles (F := F) N t
  refine ⟨hv, hcl, hf, hft, hg, ha, hc, ht, ?_, ?_⟩
  · intro tr hncc hvt
    have heq := fires_eq_closes tr s h2 hncc hvt
    rw [h4] at heq
    simpa using heq
  · intro tr hvt
    have hInv : Inv s :=
      ⟨fun _ => h2, by rw [h4]; simp, fun hne => absurd h4 hne, fun _ => h4⟩
    have hend := Inv_run tr s hInv hvt
    exact ⟨hend.2.1, fun hc2 => hend.2.2.2 hc2⟩

theorem C3_fixed_delay_reconnect_witness :
    (wOpen.gatewaySocket = some ReadyState.OPEN) ∧
    (wOpen.alive = true) ∧
    (wOpen.clientOpen = true) ∧
    (wOpen.timers = []) ∧
    (wOpen.now ≤ 5) ∧
    (validTrace wOpen (cycles Nat 5 2) = true ∧
     countCloses (cycles Nat 5 2) = 2 ∧
     countFires (cycles Nat 5 2) = 2 ∧
     fireTimes (cycles Nat 5 2) =
       (closeTimes (cycles Nat 5 2)).map (fun u => u + RECONNECT_DELAY) ∧
     (run wOpen (cycles Nat 5 2)).1.gatewaySocket = some ReadyState.OPEN ∧
     (run wOpen (cycles Nat 5 2)).1.alive = true ∧
     (run wOpen (cycles Nat 5 2)).1.clientOpen = true ∧
     (run wOpen (cycles Nat 5 2)).1.timers = [] ∧
     (∀ tr : List (Nat × Ev Nat), noClientClose tr = true →
       validTrace wOpen tr = true →
       countFires tr + (run wOpen tr).1.timers.length = countCloses tr) ∧
     (∀ tr : List (Nat × Ev Nat), validTrace wOpen tr = true →
       (run wOpen tr).1.timers.length ≤ 1 ∧
       ((run wOpen tr).1.gatewaySocket = some ReadyState.CONNECTING →
         (run wOpen tr).1.timers = []))) :=
  ⟨by decide, by decide, by decide, by decide, by decide,
   C3_fixed_delay_reconnect wOpen 5 2 (by decide) (by decide) (by decide)
     (by decide) (by decide)⟩

end Bridge
